import Mathlib

/-
Verification of the concurrent scraping orchestration and extraction
pipeline of the Job_scraper repository.  The Python sources are shallowly
embedded: pure text utilities become Lean functions on `String` / `List Char`,
the retrying parallel executor becomes a recursion over an attempt-indexed
worker, and the orchestrator's dedup drain becomes explicit state passing.
-/

set_option maxRecDepth 4096

namespace JobScraper

/-! ## Character and string primitives

Models of the Python `str` operations used by the scraper:
`lower`, `in` (substring test), `strip`, `split`. -/

/-- Python `str.lower()` for the ASCII texts handled by the scraper. -/
def lowerStr (s : String) : String := ⟨s.data.map Char.toLower⟩

/-- `startsWithL pat l` is true when `pat` occurs at the head of `l`. -/
def startsWithL : List Char → List Char → Bool
  | [], _ => true
  | _ :: _, [] => false
  | a :: as, b :: bs => a == b && startsWithL as bs

/-- Python `needle in hay` substring test, on character lists. -/
def containsL (needle : List Char) : List Char → Bool
  | [] => needle.isEmpty
  | c :: rest => startsWithL needle (c :: rest) || containsL needle rest

/-- Python `needle in hay` substring test on strings. -/
def containsSub (hay needle : String) : Bool := containsL needle.data hay.data

/-- Drop whitespace from both ends, as Python `str.strip()`. -/
def stripL (l : List Char) : List Char :=
  ((l.dropWhile Char.isWhitespace).reverse.dropWhile Char.isWhitespace).reverse

/-- Python `str.strip()`. -/
def strip (s : String) : String := ⟨stripL s.data⟩

/-- Splitter for Python `str.split()`: splits on whitespace runs and drops
empty pieces.  The accumulator holds the current word reversed. -/
def splitWsAux : List Char → List Char → List (List Char)
  | [], cur => if cur.isEmpty then [] else [cur.reverse]
  | c :: rest, cur =>
    if c.isWhitespace then
      if cur.isEmpty then splitWsAux rest [] else cur.reverse :: splitWsAux rest []
    else splitWsAux rest (c :: cur)

/-- Python `str.split()` with no separator argument. -/
def splitWs (s : String) : List String := (splitWsAux s.data []).map (fun l => ⟨l⟩)

/-! ## utils/keyword_matcher.py -/

/-- The fixed abbreviation-variant table `keyword_variations` of
`keyword_matches`. -/
def keywordVariations : List (String × List String) :=
  [("sre", ["site reliability engineer", "site reliability", "sre"]),
   ("devops", ["devops", "dev ops", "development operations"]),
   ("ml", ["machine learning", "ml"]),
   ("ai", ["artificial intelligence", "ai"]),
   ("qa", ["quality assurance", "qa", "quality engineer"]),
   ("ui", ["user interface", "ui"]),
   ("ux", ["user experience", "ux"])]

/-- `keyword_matches(title, keyword)` from utils/keyword_matcher.py:
case-insensitive substring hit, else variant-table hit, else for multi-word
keywords all words individually present. -/
def keyword_matches (title keyword : String) : Bool :=
  let titleLower := lowerStr title
  let keywordLower := lowerStr keyword
  if containsSub titleLower keywordLower then true
  else if ((keywordVariations.lookup keywordLower).getD []).any
      (fun v => containsSub titleLower v) then true
  else
    let keywordWords := splitWs keywordLower
    if keywordWords.length > 1 then
      keywordWords.all (fun w => containsSub titleLower w)
    else false

example : keyword_matches "Site Reliability Engineer II" "sre" = true := by decide
example : keyword_matches "Backend Developer" "sre" = false := by decide
example : keyword_matches "Senior Python Developer" "python developer" = true := by decide

/-! ## A small matcher for the regular expressions of the repository

Every `re.search` call in utils/date_parser.py and utils/text_parser.py
uses a pattern built from literals, digit groups `(\d+)` / `\d{n}`,
whitespace `\s*` / `\s+`, an optional character `x?` and literal
alternation `(?:a|b)`.  `Tok` lists spell those patterns out.  Alternation
and the optional character backtrack into the continuation exactly as the
Python engine does; digit and whitespace runs use maximal munch, which
coincides with the engine's greedy backtracking here because no literal
that follows such a run can extend it. -/

inductive Tok where
  | lit (s : String)
  | digits
  | digitsN (n : Nat)
  | ws0
  | ws1

/-- Digit string to number, as Python `int()`. -/
def digitsToNat (l : List Char) : Nat :=
  l.foldl (fun acc c => acc * 10 + (c.toNat - 48)) 0

/-- Match one fully sequential token list at the head of `l`; on success
return the captured digit groups (as digit strings, the way `match.group`
does) together with the remaining input. -/
def matchToks : List Tok → List Char → Option (List (List Char) × List Char)
  | [], l => some ([], l)
  | .lit s :: ts, l =>
    if startsWithL s.data l then matchToks ts (l.drop s.data.length) else none
  | .digits :: ts, l =>
    let ds := l.takeWhile Char.isDigit
    if ds.isEmpty then none
    else
      match matchToks ts (l.dropWhile Char.isDigit) with
      | some (caps, rest) => some (ds :: caps, rest)
      | none => none
  | .digitsN n :: ts, l =>
    let ds := l.take n
    if ds.length == n && ds.all Char.isDigit then
      match matchToks ts (l.drop n) with
      | some (caps, rest) => some (ds :: caps, rest)
      | none => none
    else none
  | .ws0 :: ts, l => matchToks ts (l.dropWhile Char.isWhitespace)
  | .ws1 :: ts, l =>
    if (l.takeWhile Char.isWhitespace).isEmpty then none
    else matchToks ts (l.dropWhile Char.isWhitespace)

/-- A pattern is the ordered list of its sequential expansions: `(?:a|b)`
and `x?` are expanded out, greedy alternative first, so trying the
expansions in order at one start position is the engine's backtracking
order at that position. -/
def Pat : Type := List (List Tok)

/-- Try the expansions of a pattern at one start position, in order. -/
def matchPat (pat : Pat) (l : List Char) : Option (List (List Char) × List Char) :=
  pat.findSome? (fun toks => matchToks toks l)

/-- `re.search`: scan start positions left to right and return the captures
of the leftmost match. -/
def searchToks (pat : Pat) : List Char → Option (List (List Char))
  | [] => (matchPat pat []).map (·.1)
  | c :: rest =>
    match matchPat pat (c :: rest) with
    | some (caps, _) => some caps
    | none => searchToks pat rest

/-- Sequential composition of pattern pieces: the expansion order makes an
earlier piece's choice vary slowest, matching backtracking priority. -/
def seqProd (parts : List Pat) : Pat :=
  parts.foldr (fun alts acc => alts.flatMap (fun a => acc.map (a ++ ·))) [[]]

/-- A mandatory piece. -/
def just (t : Tok) : Pat := [[t]]

/-- An optional (greedy) piece such as `s?` or `\+?`. -/
def opt (t : Tok) : Pat := [[t], []]

/-- A literal alternation such as `(?:hour|hr)`. -/
def alts (ss : List String) : Pat := ss.map (fun s => [.lit s])

/-! ## utils/date_parser.py

The `datetime` library is the external collaborator: it is abstracted as a
type `D` of dates with the three operations the parser calls.  `mkDate`
returns `none` where `datetime(year, month, day)` would raise `ValueError`. -/

structure DateOps (D : Type) where
  format : D → String
  subDays : D → Nat → D
  mkDate : Nat → Nat → Nat → Option D

/-- `date_string.lower().strip()` as a character list. -/
def normInput (s : String) : List Char := stripL (lowerStr s).data

/-- Pattern `(\d+)\s*(?:hour|hr)s?\s*ago`. -/
def hoursPat : Pat :=
  seqProd [just .digits, just .ws0, alts ["hour", "hr"], opt (.lit "s"),
           just .ws0, just (.lit "ago")]

/-- Pattern `(\d+)\s*(?:day|d)s?\s*ago`. -/
def daysPat : Pat :=
  seqProd [just .digits, just .ws0, alts ["day", "d"], opt (.lit "s"),
           just .ws0, just (.lit "ago")]

/-- Pattern `(\d+)\s*(?:week|wk)s?\s*ago`. -/
def weeksPat : Pat :=
  seqProd [just .digits, just .ws0, alts ["week", "wk"], opt (.lit "s"),
           just .ws0, just (.lit "ago")]

/-- Pattern `(\d+)\s*(?:month|mo)s?\s*ago`. -/
def monthsPat : Pat :=
  seqProd [just .digits, just .ws0, alts ["month", "mo"], opt (.lit "s"),
           just .ws0, just (.lit "ago")]

/-- Pattern `over\s+(\d+)\s*(?:day|d)s?\s*ago`. -/
def overDaysPat : Pat :=
  seqProd [just (.lit "over"), just .ws1, just .digits, just .ws0,
           alts ["day", "d"], opt (.lit "s"), just .ws0, just (.lit "ago")]

/-- Pattern `(\d+)\+\s*(?:day|d)s?\s*ago`. -/
def plusDaysPat : Pat :=
  seqProd [just .digits, just (.lit "+"), just .ws0, alts ["day", "d"],
           opt (.lit "s"), just .ws0, just (.lit "ago")]

/-- Absolute pattern `(\d{4})-(\d{2})-(\d{2})`. -/
def absPat1 : Pat := [[.digitsN 4, .lit "-", .digitsN 2, .lit "-", .digitsN 2]]

/-- Absolute pattern `(\d{2})/(\d{2})/(\d{4})`. -/
def absPat2 : Pat := [[.digitsN 2, .lit "/", .digitsN 2, .lit "/", .digitsN 4]]

/-- Absolute pattern `(\d{2})-(\d{2})-(\d{4})`. -/
def absPat3 : Pat := [[.digitsN 2, .lit "-", .digitsN 2, .lit "-", .digitsN 4]]

/-- The `today` / `just now` / `just posted` substring test. -/
def todayHit (s : String) : Bool :=
  (["today", "just now", "just posted"]).any (fun w => containsL w.data (normInput s))

/-- The `yesterday` substring test. -/
def yesterdayHit (s : String) : Bool := containsL "yesterday".data (normInput s)

def hoursFind (s : String) : Option (List (List Char)) := searchToks hoursPat (normInput s)
def daysFind (s : String) : Option (List (List Char)) := searchToks daysPat (normInput s)
def weeksFind (s : String) : Option (List (List Char)) := searchToks weeksPat (normInput s)
def monthsFind (s : String) : Option (List (List Char)) := searchToks monthsPat (normInput s)
def overDaysFind (s : String) : Option (List (List Char)) := searchToks overDaysPat (normInput s)
def plusDaysFind (s : String) : Option (List (List Char)) := searchToks plusDaysPat (normInput s)

/-- The absolute patterns are searched on the original string. -/
def absFind1 (s : String) : Option (List (List Char)) := searchToks absPat1 s.data
def absFind2 (s : String) : Option (List (List Char)) := searchToks absPat2 s.data
def absFind3 (s : String) : Option (List (List Char)) := searchToks absPat3 s.data

/-- Third step of the absolute-format loop: pattern `DD-MM-YYYY`; an invalid
date (`ValueError`) falls off the loop and yields `None`. -/
def absChain3 {D : Type} (ops : DateOps D) (s : String) : Option String :=
  match absFind3 s with
  | some [d, m, y] =>
    (ops.mkDate (digitsToNat y) (digitsToNat m) (digitsToNat d)).map ops.format
  | _ => none

/-- Second step of the absolute-format loop: pattern `MM/DD/YYYY`; on no
match or invalid date, `continue` moves to the third pattern. -/
def absChain2 {D : Type} (ops : DateOps D) (s : String) : Option String :=
  match absFind2 s with
  | some [m, d, y] =>
    match ops.mkDate (digitsToNat y) (digitsToNat m) (digitsToNat d) with
    | some dt => some (ops.format dt)
    | none => absChain3 ops s
  | _ => absChain3 ops s

/-- First step of the absolute-format loop: pattern `YYYY-MM-DD`; on no
match or invalid date, `continue` moves to the second pattern. -/
def absChain1 {D : Type} (ops : DateOps D) (s : String) : Option String :=
  match absFind1 s with
  | some [y, m, d] =>
    match ops.mkDate (digitsToNat y) (digitsToNat m) (digitsToNat d) with
    | some dt => some (ops.format dt)
    | none => absChain2 ops s
  | _ => absChain2 ops s

/-- `parse_relative_date` from utils/date_parser.py, relative to the fixed
current date `now`.  Returns the ISO `YYYY-MM-DD` rendering (via
`ops.format`, the model of `strftime`) or `none` when no pattern applies. -/
def parse_relative_date {D : Type} (ops : DateOps D) (now : D) (s : String) : Option String :=
  if s.data.isEmpty then none
  else if todayHit s then some (ops.format now)
  else if yesterdayHit s then some (ops.format (ops.subDays now 1))
  else
    match hoursFind s with
    | some (h :: _) =>
      let n := digitsToNat h
      if n < 24 then some (ops.format now)
      else some (ops.format (ops.subDays now (n / 24)))
    | _ =>
      match daysFind s with
      | some (d :: _) => some (ops.format (ops.subDays now (digitsToNat d)))
      | _ =>
        match weeksFind s with
        | some (w :: _) => some (ops.format (ops.subDays now (digitsToNat w * 7)))
        | _ =>
          match monthsFind s with
          | some (m :: _) => some (ops.format (ops.subDays now (digitsToNat m * 30)))
          | _ =>
            match overDaysFind s with
            | some (d :: _) => some (ops.format (ops.subDays now (digitsToNat d + 1)))
            | _ =>
              match plusDaysFind s with
              | some (d :: _) => some (ops.format (ops.subDays now (digitsToNat d)))
              | _ => absChain1 ops s

/-- A date string fires at least one pattern of `parse_relative_date`.
The complement of this predicate characterises the unparseable inputs. -/
def dateRecognized (s : String) : Bool :=
  todayHit s || yesterdayHit s ||
  (hoursFind s).isSome || (daysFind s).isSome || (weeksFind s).isSome ||
  (monthsFind s).isSome || (overDaysFind s).isSome || (plusDaysFind s).isSome ||
  (absFind1 s).isSome || (absFind2 s).isSome || (absFind3 s).isSome

/-- A concrete model of the `datetime` collaborator used by witnesses:
dates are day numbers, formatting is decimal rendering. -/
def natDateOps : DateOps Nat :=
  { format := fun n => toString n
    subDays := fun n k => n - k
    mkDate := fun y m d =>
      if 1 ≤ m && m ≤ 12 && 1 ≤ d && d ≤ 31 then some (y * 372 + m * 31 + d) else none }

example : parse_relative_date natDateOps 100 "2 days ago" = some "98" := by decide
example : parse_relative_date natDateOps 100 "Today" = some "100" := by decide
example : parse_relative_date natDateOps 100 "Posted 36 hours ago" = some "99" := by decide
example : parse_relative_date natDateOps 100 "5 hours ago" = some "100" := by decide
example : parse_relative_date natDateOps 100 "complete gibberish" = none := by decide
example : dateRecognized "complete gibberish" = false := by decide

/-! ## utils/text_parser.py -/

/-- An apostrophe, spelled out for use inside the heading literals. -/
def apos : String := ⟨[Char.ofNat 39]⟩

/-- Pattern `(\d+)\+?\s*(?:to|\-|–)\s*(\d+)\+?\s*years?`. -/
def expPat1 : Pat :=
  seqProd [just .digits, opt (.lit "+"), just .ws0, alts ["to", "-", "–"],
           just .ws0, just .digits, opt (.lit "+"), just .ws0,
           just (.lit "year"), opt (.lit "s")]

/-- Pattern `(\d+)\+\s*years?`. -/
def expPat2 : Pat :=
  seqProd [just .digits, just (.lit "+"), just .ws0, just (.lit "year"), opt (.lit "s")]

/-- Pattern `minimum\s+of\s+(\d+)\+?\s*years?`. -/
def expPat3 : Pat :=
  seqProd [just (.lit "minimum"), just .ws1, just (.lit "of"), just .ws1,
           just .digits, opt (.lit "+"), just .ws0, just (.lit "year"), opt (.lit "s")]

/-- Pattern `at\s+least\s+(\d+)\+?\s*years?`. -/
def expPat4 : Pat :=
  seqProd [just (.lit "at"), just .ws1, just (.lit "least"), just .ws1,
           just .digits, opt (.lit "+"), just .ws0, just (.lit "year"), opt (.lit "s")]

/-- Pattern `(\d+)\s*years?\s+of\s+experience`. -/
def expPat5 : Pat :=
  seqProd [just .digits, just .ws0, just (.lit "year"), opt (.lit "s"),
           just .ws1, just (.lit "of"), just .ws1, just (.lit "experience")]

/-- The years-of-experience loop of `parse_job_description`: the first
pattern that matches wins; a two-group match renders as `N-M years`, a
one-group match as `N+ years` (the group strings are used verbatim). -/
def yearsOfExperience (textLower : List Char) : Option String :=
  match searchToks expPat1 textLower with
  | some [a, b] => some (⟨a⟩ ++ "-" ++ ⟨b⟩ ++ " years")
  | _ =>
    match searchToks expPat2 textLower with
    | some [a] => some (⟨a⟩ ++ "+ years")
    | _ =>
      match searchToks expPat3 textLower with
      | some [a] => some (⟨a⟩ ++ "+ years")
      | _ =>
        match searchToks expPat4 textLower with
        | some [a] => some (⟨a⟩ ++ "+ years")
        | _ =>
          match searchToks expPat5 textLower with
          | some [a] => some (⟨a⟩ ++ "+ years")
          | _ => none

/-- At one position, the first heading alternative (greedy order, the
optional trailing colon included first) that matches, with its length. -/
def matchAltsLen (as : List String) (l : List Char) : Option Nat :=
  as.findSome? (fun a => if startsWithL a.data l then some a.data.length else none)

/-- Leftmost occurrence of a heading pattern: returns `match.start()` and
`match.end()` as `find_section_start` uses them. -/
def searchLits (as : List String) : List Char → Nat → Option (Nat × Nat)
  | [], _ => none
  | c :: rest, i =>
    match matchAltsLen as (c :: rest) with
    | some len => some (i, i + len)
    | none => searchLits as rest (i + 1)

/-- `find_section_start`: the first pattern in the list that matches
anywhere decides; later patterns are not consulted. -/
def find_section_start (patterns : List (List String)) (textLower : List Char) :
    Option (Nat × Nat) :=
  patterns.findSome? (fun p => searchLits p textLower 0)

/-- Heading regex `(?:key )?responsibilities:?`, alternatives in greedy
order. -/
def respSet1 : List String :=
  ["key responsibilities:", "key responsibilities", "responsibilities:", "responsibilities"]

/-- Heading regex `what you(?:'ll| will) do:?`. -/
def respSet2 : List String :=
  ["what you" ++ apos ++ "ll do:", "what you" ++ apos ++ "ll do",
   "what you will do:", "what you will do"]

/-- Heading regex `duties:?`. -/
def respSet3 : List String := ["duties:", "duties"]

/-- Heading regex `role overview:?`. -/
def respSet4 : List String := ["role overview:", "role overview"]

/-- Heading regex `job description:?`. -/
def respSet5 : List String := ["job description:", "job description"]

/-- The `resp_patterns` heading list. -/
def resp_patterns : List (List String) :=
  [respSet1, respSet2, respSet3, respSet4, respSet5]

/-- Heading regex `(?:required )?skills:?`. -/
def skillSet1 : List String :=
  ["required skills:", "required skills", "skills:", "skills"]

/-- Heading regex `qualifications:?`. -/
def skillSet2 : List String := ["qualifications:", "qualifications"]

/-- Heading regex `requirements:?`. -/
def skillSet3 : List String := ["requirements:", "requirements"]

/-- Heading regex `what we(?:'re| are) looking for:?`. -/
def skillSet4 : List String :=
  ["what we" ++ apos ++ "re looking for:", "what we" ++ apos ++ "re looking for",
   "what we are looking for:", "what we are looking for"]

/-- Heading regex `who you are:?`. -/
def skillSet5 : List String := ["who you are:", "who you are"]

/-- Heading regex `must haves?:?`. -/
def skillSet6 : List String := ["must haves:", "must haves", "must have:", "must have"]

/-- The `skill_patterns` heading list. -/
def skill_patterns : List (List String) :=
  [skillSet1, skillSet2, skillSet3, skillSet4, skillSet5, skillSet6]

/-- Python `len`, as a tail-recursive fold so that long descriptions
evaluate with constant stack. -/
def lenT (l : List Char) : Nat := l.foldl (fun n _ => n + 1) 0

/-- The length cleanup of `parse_job_description`: a field longer than
2000 characters is cut to its first 2000 characters plus `"..."`. -/
def truncateField (l : List Char) : List Char :=
  if lenT l > 2000 then l.take 2000 ++ ("...".data) else l

structure ParsedDescription where
  responsibilities : Option String
  skills : Option String
  years_of_experience : Option String
deriving DecidableEq, Repr

/-- The section-slicing block of `parse_job_description`, on the two
heading search results: whichever heading occurs first takes the text up
to the other heading; with one heading everything after it goes to that
field; Python's empty slices appear as empty lists through truncating
subtraction. -/
def sliceSections (textL : List Char) :
    Option (Nat × Nat) → Option (Nat × Nat) → List Char × List Char
  | some (rStart, rEnd), some (sStart, sEnd) =>
    if rStart < sStart then
      (stripL ((textL.drop rEnd).take (sStart - rEnd)), stripL (textL.drop sEnd))
    else
      (stripL (textL.drop rEnd), stripL ((textL.drop sEnd).take (rStart - sEnd)))
  | some (_, rEnd), none => (stripL (textL.drop rEnd), [])
  | none, some (_, sEnd) => ([], stripL (textL.drop sEnd))
  | none, none => ([], [])

/-- The two raw section fields of `parse_job_description`: headings are
searched on the lowercased text, slices are cut from the original. -/
def sectionFields (textL : List Char) : List Char × List Char :=
  sliceSections textL
    (find_section_start resp_patterns (textL.map Char.toLower))
    (find_section_start skill_patterns (textL.map Char.toLower))

/-- `parse_job_description` from utils/text_parser.py. -/
def parse_job_description (text : String) : ParsedDescription :=
  if text.data.isEmpty then ⟨none, none, none⟩
  else
    let years := yearsOfExperience (text.data.map Char.toLower)
    let fields := sectionFields text.data
    let resp := truncateField fields.1
    let skl := truncateField fields.2
    ⟨if resp.isEmpty then none else some ⟨resp⟩,
     if skl.isEmpty then none else some ⟨skl⟩,
     years⟩

example :
    parse_job_description "Responsibilities: Build things. Skills: Go, Rust." =
      ⟨some "Build things.", some "Go, Rust.", none⟩ := by decide

example :
    parse_job_description "We want 3-5 years experience. Requirements: Python." =
      ⟨none, some "Python.", some "3-5 years"⟩ := by decide

/-- A description whose responsibilities section is 2100 characters long,
exercising the truncation branch. -/
def c5text : String := "Responsibilities: " ++ ⟨List.replicate 2100 'a'⟩

/-! ## utils/email_extractor.py

Both functions search the same pattern
`\b[A-Za-z0-9._%+-]+@[A-Za-z0-9.-]+\.[A-Z|a-z]{2,}\b` with `re.findall`. -/

/-- `\w` of the `re` module, on the ASCII inputs handled here. -/
def wordChar (c : Char) : Bool := c.isAlpha || c.isDigit || c == '_'

/-- The local-part class `[A-Za-z0-9._%+-]`. -/
def localChar (c : Char) : Bool :=
  c.isAlpha || c.isDigit || c == '.' || c == '_' || c == '%' || c == '+' || c == '-'

/-- The domain class `[A-Za-z0-9.-]`. -/
def domainChar (c : Char) : Bool := c.isAlpha || c.isDigit || c == '.' || c == '-'

/-- The top-level class `[A-Z|a-z]`: the pattern literally includes the
pipe character inside the class. -/
def tldChar (c : Char) : Bool := c.isAlpha || c == '|'

/-- Word status of the character at a position; the ends of the string
count as non-word for `\b`. -/
def headIsWord : List Char → Bool
  | [] => false
  | c :: _ => wordChar c

/-- Backtracking split of the input after the `@` for
`[A-Za-z0-9.-]+\.[A-Z|a-z]{2,}\b`: the greedy domain run backtracks from
longest to shortest until a dot, a top-level run of length at least two
and a closing word boundary follow.  The `{2,}` run itself is maximal
munch, which coincides with the engine on inputs without a pipe character
in top-level position. -/
def domainSplit (rest2 : List Char) : Nat → Option (List Char × List Char)
  | 0 => none
  | k + 1 =>
    match rest2.drop (k + 1) with
    | '.' :: afterDot =>
      let t := afterDot.takeWhile tldChar
      if 2 ≤ lenT t && (wordChar (t.getLastD ' ') != headIsWord (afterDot.drop (lenT t))) then
        some (rest2.take (k + 1) ++ '.' :: t, afterDot.drop (lenT t))
      else domainSplit rest2 k
    | _ => domainSplit rest2 k

/-- Try the email pattern at the current position: a leading word
boundary, a maximal local-part run (no later literal can extend it), the
`@`, then the domain split.  Returns the match and the rest after it. -/
def tryEmail (prevWord : Bool) (l : List Char) : Option (List Char × List Char) :=
  if (l.takeWhile localChar).isEmpty then none
  else if prevWord == headIsWord l then none
  else
    match l.dropWhile localChar with
    | '@' :: rest2 =>
      let d := rest2.takeWhile domainChar
      if d.isEmpty then none
      else
        match domainSplit rest2 (lenT d) with
        | some (dom, rest3) => some (l.takeWhile localChar ++ '@' :: dom, rest3)
        | none => none
    | _ => none

/-- `re.findall`: scan start positions left to right; after a match,
continue after its end, so matches never overlap.  The fuel starts at the
input length and bounds the number of scan steps. -/
def emailScanF : Nat → Bool → List Char → List String
  | 0, _, _ => []
  | _, _, [] => []
  | fuel + 1, prevWord, c :: rest =>
    match tryEmail prevWord (c :: rest) with
    | some (m, restAfter) =>
      (⟨m⟩ : String) :: emailScanF fuel (wordChar (m.getLastD ' ')) restAfter
    | none => emailScanF fuel (wordChar c) rest

/-- The match list shared by `extract_email` and `extract_all_emails`. -/
def emailPatternMatches (text : String) : List String :=
  emailScanF (lenT text.data) false text.data

/-- `extract_email`: the first match, or `None` when there is none. -/
def extract_email (text : String) : Option String :=
  if text.data.isEmpty then none else (emailPatternMatches text).head?

/-- The order-preserving case-insensitive dedup loop of
`extract_all_emails`, with the `seen` set of lowercased addresses. -/
def dedupEmails : List String → List String → List String
  | [], _ => []
  | e :: rest, seen =>
    if seen.contains (lowerStr e) then dedupEmails rest seen
    else e :: dedupEmails rest (lowerStr e :: seen)

/-- `extract_all_emails`: every distinct match in first-seen order. -/
def extract_all_emails (text : String) : List String :=
  if text.data.isEmpty then [] else dedupEmails (emailPatternMatches text) []

example :
    extract_email "write to Jobs@Example.com or jobs@example.com now" =
      some "Jobs@Example.com" := by decide
example :
    extract_all_emails "write to Jobs@Example.com or jobs@example.com now" =
      ["Jobs@Example.com"] := by decide
example : extract_email "no address here" = none := by decide

/-! ## utils/parallel.py -/

/-- Outcome of one worker invocation on one item: a truthy result, a
falsy result (`None` or empty — `if result:` fails), or a raised
exception. -/
inductive FetchOutcome (β : Type) where
  | ok (b : β)
  | empty
  | err
deriving DecidableEq, Repr

/-- The value appended to `results` by the completion loop, if any. -/
def FetchOutcome.okValue {β : Type} : FetchOutcome β → Option β
  | .ok b => some b
  | _ => none

/-- Whether the invocation raised (the `except` arm of the loop). -/
def FetchOutcome.isErr {β : Type} : FetchOutcome β → Bool
  | .err => true
  | _ => false

/-- One pass of `parallel_fetch`'s completion loop: a truthy result is
appended to the output, an exception puts the item into `failed_items`,
a falsy result is dropped.  Completion order is modelled as submission
order; the properties proved below are order-insensitive. -/
def singlePass {α β : Type} (w : α → FetchOutcome β) : List α → List β × List α
  | [] => ([], [])
  | i :: rest =>
    let r := singlePass w rest
    match w i with
    | .ok b => (b :: r.1, r.2)
    | .empty => r
    | .err => (r.1, i :: r.2)

/-- `parallel_fetch` with its recursive retry.  `W attempt` is the
worker's behaviour on its `attempt`-th invocation of an item (an item is
re-invoked only in the next recursion level, so the level is the per-item
attempt number).  After a pass, if the retry budget is positive and
`failed_items` is non-empty, the executor recurses over exactly the
failed items with the budget decremented and appends those results. -/
def parallelFetch {α β : Type} (W : Nat → α → FetchOutcome β) :
    Nat → Nat → List α → List β
  | _, _, [] => []
  | 0, attempt, i :: items => (singlePass (W attempt) (i :: items)).1
  | retryCount + 1, attempt, i :: items =>
    let p := singlePass (W attempt) (i :: items)
    if p.2.isEmpty then p.1
    else p.1 ++ parallelFetch W retryCount (attempt + 1) p.2

/-- How `parallel_fetch` classifies a detail-fetch return value: `None`
is falsy (an intentional no-record outcome), a job record is truthy, and
the fetch functions catch their own exceptions. -/
def outcomeOfOption {β : Type} : Option β → FetchOutcome β
  | some b => .ok b
  | none => .empty

/-! ## scrapers/base.py -/

/-- The `JobListing` dataclass. -/
structure JobListing where
  title : String
  company : String
  location : String
  url : String
  platform : String
  description : Option String := none
  key_responsibilities : Option String := none
  skills : Option String := none
  years_of_experience : Option String := none
  posted_date : Option String := none
  email : Option String := none
deriving DecidableEq, Repr

/-! ## The detail fetches of scrapers/glassdoor.py and scrapers/linkedin.py

The browser collaborator is abstracted as the fields it hands back for
one detail page; `none` models `query_selector` matching no fallback
selector for that field. -/

structure DetailPage where
  pageTitle : String
  detailsLoaded : Bool
  title : Option String := none
  company : Option String := none
  loc : Option String := none
  description : Option String := none
  dateText : Option String := none

/-- The relaxed location check of the Glassdoor detail fetch
(glassdoor.py lines 255-264): the reported location mentions remote, or
contains the searched location as a case-insensitive substring, or
contains some word of the searched location. -/
def relaxedLocationMatch (loc location : String) : Bool :=
  let locLower := lowerStr loc
  let locationLower := lowerStr location
  containsSub locLower "remote" ||
  containsSub locLower locationLower ||
  (splitWs locationLower).any (fun w => containsSub locLower w)

/-- `fetch_job_detail` of `GlassdoorScraper.scrape`: details that never
load give `None`; missing fields fall back to `"Unknown"` or the searched
location; a reported location that fails the relaxed check is discarded
as `None` (a no-record outcome, not an exception). -/
def glassdoorFetchDetail {D : Type} (ops : DateOps D) (now : D)
    (location link : String) (pg : DetailPage) : Option JobListing :=
  if !pg.detailsLoaded then none
  else
    let title := match pg.title with | some t => strip t | none => "Unknown"
    let company := match pg.company with | some c => strip c | none => "Unknown"
    let loc := match pg.loc with | some l => strip l | none => location
    let description := match pg.description with | some d => strip d | none => ""
    let parsed := parse_job_description description
    let posted_date := pg.dateText.bind (fun t => parse_relative_date ops now (strip t))
    if !relaxedLocationMatch loc location then none
    else
      some { title := title, company := company, location := loc, url := link,
             platform := "Glassdoor", description := some description,
             key_responsibilities := parsed.responsibilities, skills := parsed.skills,
             years_of_experience := parsed.years_of_experience,
             posted_date := posted_date, email := extract_email description }

/-- The login-redirect heuristic on `page.title()` in the LinkedIn detail
fetch. -/
def linkedinRedirectTitle (pageTitle : String) : Bool :=
  containsSub pageTitle "Join" || containsSub pageTitle "Sign" ||
    containsSub pageTitle "Log"

/-- The login-page heuristic on the extracted job title in the LinkedIn
detail fetch. -/
def linkedinLoginTitle (title : String) : Bool :=
  title == "Join LinkedIn" || title == "Sign in" || title == "Log in"

/-- `fetch_job_detail` of `LinkedinScraper.scrape`: the login/signup
redirect heuristics give `None`; the reported location is stored on the
record but never compared against the searched location. -/
def linkedinFetchDetail {D : Type} (ops : DateOps D) (now : D)
    (location link : String) (pg : DetailPage) : Option JobListing :=
  if linkedinRedirectTitle pg.pageTitle then none
  else
    let build := fun (title : String) =>
      let company := match pg.company with
        | some c => if (strip c).data.isEmpty then "Unknown" else strip c
        | none => "Unknown"
      let loc := match pg.loc with | some l => strip l | none => location
      let description := match pg.description with | some d => strip d | none => ""
      let posted_date := pg.dateText.bind (fun t => parse_relative_date ops now (strip t))
      let parsed := parse_job_description description
      some { title := title, company := company, location := loc, url := link,
             platform := "LinkedIn", description := some description,
             key_responsibilities := parsed.responsibilities, skills := parsed.skills,
             years_of_experience := parsed.years_of_experience,
             posted_date := posted_date, email := extract_email description }
    match pg.title with
    | some t =>
      let title := if (strip t).data.isEmpty then "Unknown" else strip t
      if linkedinLoginTitle title then none
      else build title
    | none => build "Unknown"

/-! ## main.py -/

/-- The per-task dedup loop of `main`: walk the completed task's jobs in
order; a job whose URL is not in `seen_urls` is kept and its URL
recorded. -/
def processTask : List JobListing → List String → List String × List JobListing
  | [], seen => (seen, [])
  | j :: js, seen =>
    if seen.contains j.url then processTask js seen
    else
      let r := processTask js (j.url :: seen)
      (r.1, j :: r.2)

/-- The `as_completed` drain of `main`: completed tasks are consumed one
at a time against the shared `seen_urls` set, and each task's unique jobs
are appended to `all_jobs`. -/
def mainDrain :
    List (List JobListing) → List String × List JobListing → List String × List JobListing
  | [], st => st
  | jobs :: rest, st =>
    let r := processTask jobs st.1
    mainDrain rest (r.1, st.2 ++ r.2)

/-- `all_jobs` after draining every completed task, starting from the
empty seen-set. -/
def mainCollect (taskResults : List (List JobListing)) : List JobListing :=
  (mainDrain taskResults ([], [])).2

structure RunOutcome where
  exportAttempted : Bool
  exitCode : Nat
deriving DecidableEq, Repr

/-- The export/exit phase at the end of `main` (main.py lines 192-229):
with at least one job both exports are attempted and an export exception
exits with code 1; with no jobs a warning is logged, exporting is
skipped, and `main` returns normally, so the process exits with code 0. -/
def exportPhase (allJobs : List JobListing) (exportSucceeds : Bool) : RunOutcome :=
  if !allJobs.isEmpty then
    if exportSucceeds then ⟨true, 0⟩ else ⟨true, 1⟩
  else ⟨false, 0⟩

/-- A throwaway record used by witnesses. -/
def sampleJob : JobListing :=
  { title := "t", company := "c", location := "l", url := "u", platform := "p" }

/-! ## Helper lemmas -/

theorem isSome_false {α : Type} {o : Option α} (h : o.isSome = false) : o = none := by
  cases o with
  | none => rfl
  | some v => simp [Option.isSome] at h

theorem lenT_eq_length (l : List Char) : lenT l = l.length := by
  have key : ∀ (l : List Char) (n : Nat), l.foldl (fun n _ => n + 1) n = n + l.length := by
    intro l
    induction l with
    | nil => intro n; simp
    | cons a t ih => intro n; simp [List.foldl, ih]; omega
  simpa [lenT] using key l 0

/-! ## Claim theorems -/

/-- Claim C8: the keyword matcher accepts "Site Reliability Engineer II"
for "sre" through the variant table, rejects "Backend Developer" for
"sre", accepts "Senior Python Developer" for "python developer"; and a
single-word keyword with no variant-table entry and no case-insensitive
substring hit never matches. -/
theorem C8_keyword_matcher :
    keyword_matches "Site Reliability Engineer II" "sre" = true ∧
    keyword_matches "Backend Developer" "sre" = false ∧
    keyword_matches "Senior Python Developer" "python developer" = true ∧
    ∀ title keyword : String,
      (splitWs (lowerStr keyword)).length ≤ 1 →
      keywordVariations.lookup (lowerStr keyword) = none →
      containsSub (lowerStr title) (lowerStr keyword) = false →
      keyword_matches title keyword = false := by
  refine ⟨by decide, by decide, by decide, ?_⟩
  intro title keyword h1 h2 h3
  have h4 : ¬ (1 < (splitWs (lowerStr keyword)).length) := by omega
  simp [keyword_matches, h2, h3, h4]

/-- Witness for C8 at a keyword absent from the variant table. -/
theorem C8_keyword_matcher_witness :
    ((splitWs (lowerStr "nurse")).length ≤ 1 ∧
     keywordVariations.lookup (lowerStr "nurse") = none ∧
     containsSub (lowerStr "Backend Developer") (lowerStr "nurse") = false) ∧
    keyword_matches "Backend Developer" "nurse" = false :=
  ⟨⟨by decide, by decide, by decide⟩,
   C8_keyword_matcher.2.2.2 "Backend Developer" "nurse" (by decide) (by decide) (by decide)⟩

/-- Claim C4 counterexample: a run that yields no records skips export
but exits with code 0, not with a non-zero code as the claim states. -/
theorem C4_counterexample :
    exportPhase [] true = ⟨false, 0⟩ ∧ ¬ (exportPhase [] true).exitCode ≠ 0 := by decide

/-- Claim C4 (amended): with no records, export is skipped and the
process exits with code zero; with at least one record, export is
attempted and the exit code is non-zero exactly when exporting fails. -/
theorem C4_export_phase (jobs : List JobListing) (ok : Bool) :
    (jobs = [] → exportPhase jobs ok = ⟨false, 0⟩) ∧
    (jobs ≠ [] → (exportPhase jobs ok).exportAttempted = true ∧
      ((exportPhase jobs ok).exitCode ≠ 0 ↔ ok = false)) := by
  constructor
  · intro h; subst h; cases ok <;> rfl
  · intro h
    cases jobs with
    | nil => exact absurd rfl h
    | cons j js => cases ok <;> simp [exportPhase]

/-- Witness for C4 (amended): one job plus a failing export exits 1. -/
theorem C4_export_phase_witness :
    ([sampleJob] ≠ [] ∧ (exportPhase [sampleJob] false).exitCode = 1) ∧
    ((exportPhase [sampleJob] false).exitCode ≠ 0 ↔ false = false) :=
  ⟨⟨by decide, by decide⟩, ((C4_export_phase [sampleJob] false).2 (by decide)).2⟩

/-- Claim C10: `extract_email` is `none` exactly when
`extract_all_emails` is empty, and otherwise returns its first element —
the first-seen match, which the case-insensitive dedup never removes. -/
theorem C10_email_first (text : String) :
    extract_email text = (extract_all_emails text).head? ∧
    (extract_email text = none ↔ extract_all_emails text = []) := by
  unfold extract_email extract_all_emails
  by_cases h : text.data.isEmpty
  · simp [h]
  · simp only [h, Bool.false_eq_true, if_false]
    cases hm : emailPatternMatches text with
    | nil => simp [dedupEmails]
    | cons e rest => simp [dedupEmails]

/-- Witness for C10 on a concrete description. -/
theorem C10_email_first_witness :
    extract_email "reach us at hr@acme.io" =
      (extract_all_emails "reach us at hr@acme.io").head? :=
  (C10_email_first "reach us at hr@acme.io").1

/-- Claim C6: against a fixed current date, "2 days ago" normalizes to
now minus two days and "Today" to now, both rendered through the strftime
model; an input that fires none of the recognized patterns yields `none`
(and the embedding is a total function, so no exception can escape). -/
theorem C6_date_normalizer {D : Type} (ops : DateOps D) (now : D) :
    parse_relative_date ops now "2 days ago" = some (ops.format (ops.subDays now 2)) ∧
    parse_relative_date ops now "Today" = some (ops.format now) ∧
    ∀ s : String, dateRecognized s = false → parse_relative_date ops now s = none := by
  refine ⟨rfl, rfl, ?_⟩
  intro s h
  simp only [dateRecognized, Bool.or_eq_false_iff] at h
  obtain ⟨⟨⟨⟨⟨⟨⟨⟨⟨⟨h1, h2⟩, h3⟩, h4⟩, h5⟩, h6⟩, h7⟩, h8⟩, h9⟩, h10⟩, h11⟩ := h
  by_cases he : s.data.isEmpty
  · simp [parse_relative_date, he]
  · simp [parse_relative_date, he, h1, h2, isSome_false h3, isSome_false h4,
      isSome_false h5, isSome_false h6, isSome_false h7, isSome_false h8,
      absChain1, absChain2, absChain3, isSome_false h9, isSome_false h10,
      isSome_false h11]

/-- Witness for C6 on an unparseable input. -/
theorem C6_date_normalizer_witness :
    dateRecognized "complete gibberish" = false ∧
    parse_relative_date natDateOps 100 "complete gibberish" = none :=
  ⟨by decide, (C6_date_normalizer natDateOps 100).2.2 "complete gibberish" (by decide)⟩

/-- Claim C7: an input whose hours pattern captures N (and which dodges
the today/yesterday branches) normalizes to the current date when N < 24,
and to now minus N / 24 days — Python integer division — when N ≥ 24. -/
theorem C7_hours_division {D : Type} (ops : DateOps D) (now : D)
    (s : String) (h : List Char) (caps : List (List Char))
    (ht : todayHit s = false) (hy : yesterdayHit s = false)
    (hh : hoursFind s = some (h :: caps)) :
    (digitsToNat h < 24 → parse_relative_date ops now s = some (ops.format now)) ∧
    (24 ≤ digitsToNat h →
      parse_relative_date ops now s =
        some (ops.format (ops.subDays now (digitsToNat h / 24)))) := by
  have hne : s.data.isEmpty = false := by
    cases s with
    | mk data =>
      cases data with
      | nil =>
        rw [show hoursFind ⟨[]⟩ = none from rfl] at hh
        exact absurd hh (by simp)
      | cons c cs => rfl
  constructor
  · intro hlt
    simp [parse_relative_date, hne, ht, hy, hh, hlt]
  · intro hge
    have hnlt : ¬ (digitsToNat h < 24) := by omega
    simp [parse_relative_date, hne, ht, hy, hh, hnlt]

/-- Witness for C7 at "36 hours ago": 36 / 24 = 1 day back. -/
theorem C7_hours_division_witness :
    (todayHit "36 hours ago" = false ∧ yesterdayHit "36 hours ago" = false ∧
     hoursFind "36 hours ago" = some [['3', '6']] ∧ 24 ≤ digitsToNat ['3', '6']) ∧
    parse_relative_date natDateOps 100 "36 hours ago" =
      some (natDateOps.format (natDateOps.subDays 100 (digitsToNat ['3', '6'] / 24))) :=
  ⟨⟨by decide, by decide, by decide, by decide⟩,
   (C7_hours_division natDateOps 100 "36 hours ago" ['3', '6'] []
     (by decide) (by decide) (by decide)).2 (by decide)⟩

theorem processTask_seen (js : List JobListing) (seen : List String) (u : String) :
    u ∈ (processTask js seen).1 ↔ u ∈ seen ∨ u ∈ js.map JobListing.url := by
  induction js generalizing seen with
  | nil => simp [processTask]
  | cons j js ih =>
    by_cases h : seen.contains j.url
    · have hj : j.url ∈ seen := by simpa using h
      rw [processTask, if_pos h, ih]
      simp only [List.map_cons, List.mem_cons]
      constructor
      · rintro (hs | hm)
        · exact Or.inl hs
        · exact Or.inr (Or.inr hm)
      · rintro (hs | rfl | hm)
        · exact Or.inl hs
        · exact Or.inl hj
        · exact Or.inr hm
    · rw [processTask, if_neg h]
      rw [show (let r := processTask js (j.url :: seen); (r.1, j :: r.2)).1 =
            (processTask js (j.url :: seen)).1 from rfl]
      rw [ih]
      simp only [List.mem_cons, List.map_cons]
      tauto

theorem processTask_count (js : List JobListing) (seen : List String) (u : String) :
    ((processTask js seen).2.countP (fun j => j.url == u)) =
      if u ∈ seen then 0 else if u ∈ js.map JobListing.url then 1 else 0 := by
  induction js generalizing seen with
  | nil =>
    simp only [processTask, List.countP_nil, List.map_nil, List.not_mem_nil, if_false]
    split <;> rfl
  | cons j js ih =>
    by_cases h : seen.contains j.url
    · have hj : j.url ∈ seen := by simpa using h
      rw [processTask, if_pos h, ih]
      by_cases hu : u ∈ seen
      · simp [hu]
      · have hju : ¬ (u = j.url) := fun he => hu (he ▸ hj)
        simp only [hu, if_false, List.map_cons, List.mem_cons]
        have : (u = j.url ∨ u ∈ js.map JobListing.url) ↔ u ∈ js.map JobListing.url := by
          tauto
        rw [if_congr this rfl rfl]
    · have hj : j.url ∉ seen := by
        intro hmem
        exact h (by simpa using hmem)
      rw [processTask, if_neg h]
      rw [show (let r := processTask js (j.url :: seen); (r.1, j :: r.2)).2 =
            j :: (processTask js (j.url :: seen)).2 from rfl]
      rw [List.countP_cons, ih]
      by_cases hu : u = j.url
      · subst hu
        simp [hj]
      · have hbe : (u.data == u.data) = true := by simp
        have hne : (j.url == u) = false := by
          simp only [beq_eq_false_iff_ne, ne_eq]
          exact fun he => hu he.symm
        simp only [hne, if_false, Nat.add_zero, List.mem_cons]
        have : (u = j.url ∨ u ∈ seen) ↔ u ∈ seen := by tauto
        rw [if_congr this rfl rfl]
        simp [List.map_cons, hu]

theorem mainDrain_count (rs : List (List JobListing)) (seen : List String)
    (acc : List JobListing) (u : String)
    (hcount : acc.countP (fun j => j.url == u) = if u ∈ seen then 1 else 0) :
    (mainDrain rs (seen, acc)).2.countP (fun j => j.url == u) =
      if u ∈ seen ∨ u ∈ (rs.map (fun jobs => jobs.map JobListing.url)).flatten then 1
      else 0 := by
  induction rs generalizing seen acc with
  | nil =>
    simpa [mainDrain] using hcount
  | cons jobs rest ih =>
    rw [mainDrain]
    rw [show (let r := processTask jobs seen; mainDrain rest (r.1, acc ++ r.2)) =
          mainDrain rest ((processTask jobs seen).1, acc ++ (processTask jobs seen).2)
        from rfl]
    have hstep : (acc ++ (processTask jobs seen).2).countP (fun j => j.url == u) =
        if u ∈ (processTask jobs seen).1 then 1 else 0 := by
      rw [List.countP_append, hcount, processTask_count]
      by_cases h1 : u ∈ seen
      · simp [h1, processTask_seen]
      · by_cases h2 : u ∈ jobs.map JobListing.url <;>
          simp [h1, h2, processTask_seen]
    rw [ih _ _ hstep]
    have hiff : (u ∈ (processTask jobs seen).1 ∨
          u ∈ (rest.map (fun jobs => jobs.map JobListing.url)).flatten) ↔
        (u ∈ seen ∨
          u ∈ ((jobs :: rest).map (fun jobs => jobs.map JobListing.url)).flatten) := by
      rw [processTask_seen]
      simp only [List.map_cons, List.flatten_cons, List.mem_append]
      tauto
    rw [if_congr hiff rfl rfl]

/-- Claim C1: across all completed tasks, a canonical URL that is yielded
at least once — by two tasks or twice within one — appears on exactly one
record of the final collection; the drain checks each record's URL
against the shared seen-set and appends it only on first sight. -/
theorem C1_dedup (rs : List (List JobListing)) (u : String) :
    (mainCollect rs).countP (fun j => j.url == u) =
      if u ∈ (rs.map (fun jobs => jobs.map JobListing.url)).flatten then 1 else 0 := by
  have := mainDrain_count rs [] [] u (by simp)
  simpa [mainCollect] using this

/-- Witness for C1: the same record discovered by two tasks is collected
once. -/
theorem C1_dedup_witness :
    (mainCollect [[sampleJob], [sampleJob]]).countP (fun j => j.url == "u") = 1 := by
  rw [C1_dedup]
  decide

theorem singlePass_results {α β : Type} (w : α → FetchOutcome β) (items : List α) :
    (singlePass w items).1 = items.filterMap (fun i => (w i).okValue) := by
  induction items with
  | nil => rfl
  | cons i rest ih =>
    cases hw : w i <;>
      simp [singlePass, hw, ih, FetchOutcome.okValue, List.filterMap_cons]

theorem singlePass_failed {α β : Type} (w : α → FetchOutcome β) (items : List α) :
    (singlePass w items).2 = items.filter (fun i => (w i).isErr) := by
  induction items with
  | nil => rfl
  | cons i rest ih =>
    cases hw : w i <;>
      simp [singlePass, hw, ih, FetchOutcome.isErr, List.filter_cons]

theorem filterMap_eq_map_of {α β : Type} (f : α → Option β) (g : α → β) (l : List α)
    (h : ∀ a ∈ l, f a = some (g a)) : l.filterMap f = l.map g := by
  induction l with
  | nil => rfl
  | cons a t ih =>
    rw [List.filterMap_cons, h a (List.mem_cons_self a t),
      ih (fun b hb => h b (List.mem_cons_of_mem a hb)), List.map_cons]

theorem count_map_inj_on (l : List Nat) (g : Nat → Nat) (hnd : l.Nodup)
    (hinj : ∀ i ∈ l, ∀ j ∈ l, g i = g j → i = j) (i : Nat) (hi : i ∈ l) :
    (l.map g).count (g i) = 1 := by
  induction l with
  | nil => cases hi
  | cons a t ih =>
    rw [List.map_cons, List.count_cons]
    rcases List.mem_cons.mp hi with heq | hit
    · rw [heq]
      have hz : (t.map g).count (g a) = 0 := by
        rw [List.count_eq_zero]
        intro hmem
        obtain ⟨j, hj, hgj⟩ := List.mem_map.mp hmem
        have hja : j = a :=
          hinj j (List.mem_cons_of_mem a hj) a (List.mem_cons_self a t) hgj
        exact (List.nodup_cons.mp hnd).1 (hja ▸ hj)
      simp [hz]
    · have hanot : a ∉ t := (List.nodup_cons.mp hnd).1
      have hne : (g a == g i) = false := by
        simp only [beq_eq_false_iff_ne, ne_eq]
        intro he
        have : a = i :=
          hinj a (List.mem_cons_self a t) i (List.mem_cons_of_mem a hit) he
        exact hanot (this ▸ hit)
      rw [ih (List.nodup_cons.mp hnd).2
        (fun x hx y hy => hinj x (List.mem_cons_of_mem a hx) y (List.mem_cons_of_mem a hy))
        hit]
      simp [hne]

/-- Claim C3: in one pass of the executor, the failed-set is exactly the
items whose worker invocation raised; the output is exactly the truthy
results, so a falsy ("no record") outcome is neither appended nor
retried; and no item's exception removes a sibling's truthy result. -/
theorem C3_failure_classification {α β : Type} (w : α → FetchOutcome β)
    (items : List α) :
    (singlePass w items).2 = items.filter (fun i => (w i).isErr) ∧
    (singlePass w items).1 = items.filterMap (fun i => (w i).okValue) ∧
    (∀ i ∈ items, w i = .empty → i ∉ (singlePass w items).2) ∧
    (∀ i ∈ items, ∀ b, w i = .ok b → b ∈ (singlePass w items).1) := by
  refine ⟨singlePass_failed w items, singlePass_results w items, ?_, ?_⟩
  · intro i _ hw hmem
    rw [singlePass_failed] at hmem
    have := (List.mem_filter.mp hmem).2
    rw [hw] at this
    simp [FetchOutcome.isErr] at this
  · intro i hi b hw
    rw [singlePass_results]
    exact List.mem_filterMap.mpr ⟨i, hi, by rw [hw]; rfl⟩

/-- Worker used by the C3 witness: item 5 yields a falsy result, item 6
raises, item 7 succeeds. -/
def w3 : Nat → FetchOutcome Nat :=
  fun i => if i == 5 then .empty else if i == 6 then .err else .ok (i * 2)

/-- Witness for C3: the falsy item 5 is not in the failed-set. -/
theorem C3_failure_classification_witness :
    ((5 : Nat) ∈ [5, 6, 7] ∧ w3 5 = .empty) ∧ 5 ∉ (singlePass w3 [5, 6, 7]).2 :=
  ⟨⟨by decide, by decide⟩,
   (C3_failure_classification w3 [5, 6, 7]).2.2.1 5 (by decide) (by decide)⟩

/-- Claim C2: with a worker that raises on exactly the first attempt on
each item and returns a truthy result on the second, and a retry budget
of one, every item's result appears exactly once in the final output. -/
theorem C2_retry_once (items : List Nat) (g : Nat → Nat)
    (W : Nat → Nat → FetchOutcome Nat)
    (hne : items ≠ []) (hnd : items.Nodup)
    (h0 : ∀ i ∈ items, W 0 i = .err)
    (h1 : ∀ i ∈ items, W 1 i = .ok (g i))
    (hinj : ∀ i ∈ items, ∀ j ∈ items, g i = g j → i = j) :
    ∀ i ∈ items, (parallelFetch W 1 0 items).count (g i) = 1 := by
  intro i hi
  obtain ⟨i0, items0, rfl⟩ : ∃ a t, items = a :: t := by
    cases items with
    | nil => exact absurd rfl hne
    | cons a t => exact ⟨a, t, rfl⟩
  have hres : (singlePass (W 0) (i0 :: items0)).1 = [] := by
    rw [singlePass_results]
    rw [List.filterMap_eq_nil_iff]
    intro a ha
    rw [h0 a ha]
    rfl
  have hfail : (singlePass (W 0) (i0 :: items0)).2 = i0 :: items0 := by
    rw [singlePass_failed]
    apply List.filter_eq_self.mpr
    intro a ha
    rw [h0 a ha]
    rfl
  rw [parallelFetch]
  rw [show (let p := singlePass (W 0) (i0 :: items0);
        if p.2.isEmpty then p.1
        else p.1 ++ parallelFetch W 0 (0 + 1) p.2) =
      (if (singlePass (W 0) (i0 :: items0)).2.isEmpty
        then (singlePass (W 0) (i0 :: items0)).1
        else (singlePass (W 0) (i0 :: items0)).1 ++
          parallelFetch W 0 (0 + 1) (singlePass (W 0) (i0 :: items0)).2) from rfl]
  rw [hres, hfail]
  simp only [List.isEmpty_cons, Bool.false_eq_true, if_false, List.nil_append]
  rw [parallelFetch, singlePass_results]
  rw [filterMap_eq_map_of _ g _ (fun a ha => by rw [h1 a ha]; rfl)]
  exact count_map_inj_on _ g hnd hinj i hi

/-- Worker used by the C2 witness: every item raises on attempt 0 and
returns the item plus ten on attempt 1. -/
def w2 : Nat → Nat → FetchOutcome Nat :=
  fun attempt i => if attempt == 0 then .err else .ok (i + 10)

/-- Witness for C2 on the items [1, 2]: the result 11 appears once. -/
theorem C2_retry_once_witness :
    (([1, 2] : List Nat) ≠ [] ∧ ([1, 2] : List Nat).Nodup ∧
     (∀ i ∈ [1, 2], w2 0 i = .err) ∧
     (∀ i ∈ [1, 2], w2 1 i = .ok (i + 10)) ∧
     (∀ i ∈ [1, 2], ∀ j ∈ [1, 2], i + 10 = j + 10 → i = j)) ∧
    (parallelFetch w2 1 0 [1, 2]).count 11 = 1 :=
  ⟨⟨by decide, by decide, by decide, by decide, by decide⟩,
   C2_retry_once [1, 2] (fun i => i + 10) w2 (by decide) (by decide)
     (by decide) (by decide) (by decide) 1 (by decide)⟩

/-- The detail page used by the C9 counterexample: a LinkedIn job whose
reported location "Paris, France" does not relax-match the searched
location "Berlin". -/
def c9page : DetailPage :=
  { pageTitle := "Senior Developer - Acme", detailsLoaded := true,
    title := some "Senior Developer", company := some "Acme",
    loc := some "Paris, France", description := some "", dateText := none }

/-- Claim C9 counterexample: the LinkedIn detail fetch yields a record
although the reported location fails the relaxed match against the
searched location, so the claim is false for that implementation. -/
theorem C9_counterexample :
    c9page.loc = some "Paris, France" ∧
    relaxedLocationMatch "Paris, France" "Berlin" = false ∧
    linkedinFetchDetail natDateOps 0 "Berlin" "https://jobs.example/1" c9page ≠
      none := by decide

/-- Claim C9 (amended): the Glassdoor detail fetch yields a record only
if the reported location relax-matches the searched one, and discards a
non-matching page as `None`; the LinkedIn detail fetch performs no such
check and yields a record whenever the login heuristics pass; and a
`None` fetch result is classified as a no-record outcome, never entering
the executor's failed-set. -/
theorem C9_location_filter {D : Type} (ops : DateOps D) (now : D)
    (location link : String) (pg : DetailPage) :
    (∀ l, pg.loc = some l → relaxedLocationMatch (strip l) location = false →
      glassdoorFetchDetail ops now location link pg = none) ∧
    (∀ j, glassdoorFetchDetail ops now location link pg = some j →
      relaxedLocationMatch j.location location = true) ∧
    (linkedinRedirectTitle pg.pageTitle = false →
      (∀ t, pg.title = some t →
        linkedinLoginTitle (if (strip t).data.isEmpty then "Unknown" else strip t) = false) →
      (linkedinFetchDetail ops now location link pg).isSome = true) ∧
    (∀ (links : List String) (fetch : String → Option JobListing) (l : String),
      fetch l = none →
      l ∉ (singlePass (fun x => outcomeOfOption (fetch x)) links).2) := by
  refine ⟨?_, ?_, ?_, ?_⟩
  · intro l hl hmatch
    unfold glassdoorFetchDetail
    cases hload : pg.detailsLoaded with
    | false => simp
    | true => simp [hl, hmatch]
  · intro j hj
    unfold glassdoorFetchDetail at hj
    cases hload : pg.detailsLoaded with
    | false => rw [hload] at hj; simp at hj
    | true =>
      rw [hload] at hj
      simp only [Bool.not_true, Bool.false_eq_true, if_false] at hj
      by_cases hmatch : relaxedLocationMatch
          (match pg.loc with | some l => strip l | none => location) location
      · rw [if_neg (by simp [hmatch])] at hj
        obtain rfl := Option.some_injective _ hj.symm
        exact hmatch
      · rw [if_pos (by simp [hmatch])] at hj
        exact absurd hj (by simp)
  · intro hred hbad
    unfold linkedinFetchDetail
    rw [hred]
    simp only [Bool.false_eq_true, if_false]
    cases ht : pg.title with
    | none => rfl
    | some t =>
      have hb := hbad t ht
      simp only [List.isEmpty_iff] at hb
      simp [hb]
  · intro links fetch l hfetch hmem
    rw [singlePass_failed] at hmem
    have := (List.mem_filter.mp hmem).2
    rw [hfetch] at this
    simp [outcomeOfOption, FetchOutcome.isErr] at this

/-- Witness for C9 (amended): the Glassdoor fetch discards the
non-matching page of the counterexample as a no-record `None`. -/
theorem C9_location_filter_witness :
    (c9page.loc = some "Paris, France" ∧
     relaxedLocationMatch (strip "Paris, France") "Berlin" = false) ∧
    glassdoorFetchDetail natDateOps 0 "Berlin" "https://jobs.example/1" c9page = none :=
  ⟨⟨by decide, by decide⟩,
   (C9_location_filter natDateOps 0 "Berlin" "https://jobs.example/1" c9page).1
     "Paris, France" rfl (by decide)⟩

theorem searchLits_cons_none (as : List String) (c : Char) (rest : List Char) (i : Nat)
    (h : matchAltsLen as (c :: rest) = none) :
    searchLits as (c :: rest) i = searchLits as rest (i + 1) := by
  simp [searchLits, h]

theorem searchLits_append_none (as : List String) (xs t : List Char) (i : Nat)
    (h : ∀ j : Fin xs.length, matchAltsLen as (xs.drop j.1 ++ t) = none) :
    searchLits as (xs ++ t) i = searchLits as t (i + xs.length) := by
  induction xs generalizing i with
  | nil => simp
  | cons c xs ih =>
    have h0 : matchAltsLen as (c :: (xs ++ t)) = none := by
      simpa using h ⟨0, by simp⟩
    rw [List.cons_append, searchLits_cons_none as c (xs ++ t) i h0]
    rw [ih (i + 1) (fun j => by
      simpa using h ⟨j.1 + 1, by exact Nat.succ_lt_succ j.2⟩)]
    have harith : i + 1 + xs.length = i + (c :: xs).length := by
      simp [List.length_cons]
      omega
    rw [harith]

theorem searchLits_replicate_none (as : List String) (n i : Nat)
    (h : ∀ t : List Char, matchAltsLen as ('a' :: t) = none) :
    searchLits as (List.replicate n 'a') i = none := by
  induction n generalizing i with
  | zero => rfl
  | succ n ih =>
    rw [List.replicate_succ,
      searchLits_cons_none as 'a' (List.replicate n 'a') i (h (List.replicate n 'a')), ih]

theorem skillSet1_never_a (t : List Char) : matchAltsLen skillSet1 ('a' :: t) = none := rfl
theorem skillSet2_never_a (t : List Char) : matchAltsLen skillSet2 ('a' :: t) = none := rfl
theorem skillSet3_never_a (t : List Char) : matchAltsLen skillSet3 ('a' :: t) = none := rfl
theorem skillSet4_never_a (t : List Char) : matchAltsLen skillSet4 ('a' :: t) = none := rfl
theorem skillSet5_never_a (t : List Char) : matchAltsLen skillSet5 ('a' :: t) = none := rfl
theorem skillSet6_never_a (t : List Char) : matchAltsLen skillSet6 ('a' :: t) = none := rfl

/-- The character list of the C5 heading prefix. -/
def l1 : List Char := "Responsibilities: ".data

/-- The first 17 characters of the C5 prefix (up to the colon). -/
def l1b : List Char := "Responsibilities:".data

/-- The lowercased C5 prefix. -/
def l1l : List Char := "responsibilities: ".data

theorem c5_rs :
    find_section_start resp_patterns (l1l ++ List.replicate 2100 'a') = some (0, 17) := rfl

theorem c5_ss :
    find_section_start skill_patterns (l1l ++ List.replicate 2100 'a') = none := by
  have s1 : searchLits skillSet1 (l1l ++ List.replicate 2100 'a') 0 = none := by
    rw [searchLits_append_none skillSet1 l1l _ 0 (by decide)]
    exact searchLits_replicate_none skillSet1 2100 _ skillSet1_never_a
  have s2 : searchLits skillSet2 (l1l ++ List.replicate 2100 'a') 0 = none := by
    rw [searchLits_append_none skillSet2 l1l _ 0 (by decide)]
    exact searchLits_replicate_none skillSet2 2100 _ skillSet2_never_a
  have s3 : searchLits skillSet3 (l1l ++ List.replicate 2100 'a') 0 = none := by
    rw [searchLits_append_none skillSet3 l1l _ 0 (by decide)]
    exact searchLits_replicate_none skillSet3 2100 _ skillSet3_never_a
  have s4 : searchLits skillSet4 (l1l ++ List.replicate 2100 'a') 0 = none := by
    rw [searchLits_append_none skillSet4 l1l _ 0 (by decide)]
    exact searchLits_replicate_none skillSet4 2100 _ skillSet4_never_a
  have s5 : searchLits skillSet5 (l1l ++ List.replicate 2100 'a') 0 = none := by
    rw [searchLits_append_none skillSet5 l1l _ 0 (by decide)]
    exact searchLits_replicate_none skillSet5 2100 _ skillSet5_never_a
  have s6 : searchLits skillSet6 (l1l ++ List.replicate 2100 'a') 0 = none := by
    rw [searchLits_append_none skillSet6 l1l _ 0 (by decide)]
    exact searchLits_replicate_none skillSet6 2100 _ skillSet6_never_a
  unfold find_section_start
  rw [List.findSome?_eq_none_iff]
  intro p hp
  simp only [skill_patterns, List.mem_cons, List.not_mem_nil, or_false] at hp
  rcases hp with rfl | rfl | rfl | rfl | rfl | rfl
  exacts [s1, s2, s3, s4, s5, s6]

theorem dropWhile_ws_replicate (n : Nat) :
    List.dropWhile Char.isWhitespace (List.replicate n 'a') = List.replicate n 'a' := by
  cases n <;> rfl

theorem stripL_space_replicate :
    stripL (' ' :: List.replicate 2100 'a') = List.replicate 2100 'a' := by
  unfold stripL
  rw [show List.dropWhile Char.isWhitespace (' ' :: List.replicate 2100 'a') =
      List.dropWhile Char.isWhitespace (List.replicate 2100 'a') from rfl]
  rw [dropWhile_ws_replicate, List.reverse_replicate, dropWhile_ws_replicate,
    List.reverse_replicate]

theorem c5_fields :
    sectionFields (l1 ++ List.replicate 2100 'a') = (List.replicate 2100 'a', []) := by
  unfold sectionFields
  have hmap : (l1 ++ List.replicate 2100 'a').map Char.toLower =
      l1l ++ List.replicate 2100 'a' := by
    rw [List.map_append, List.map_replicate]
    congr 1
  rw [hmap, c5_rs, c5_ss]
  rw [show sliceSections (l1 ++ List.replicate 2100 'a') (some (0, 17)) none =
      (stripL ((l1 ++ List.replicate 2100 'a').drop 17), []) from rfl]
  have hdrop : (l1 ++ List.replicate 2100 'a').drop 17 = ' ' :: List.replicate 2100 'a' := by
    rw [show l1 ++ List.replicate 2100 'a' = l1b ++ (' ' :: List.replicate 2100 'a')
      from rfl]
    rw [show (17 : Nat) = l1b.length from rfl, List.drop_left]
  rw [hdrop, stripL_space_replicate]

theorem lenT_replicate_2100 : lenT (List.replicate 2100 'a') = 2100 := by
  rw [lenT_eq_length, List.length_replicate]

theorem c5_trunc :
    truncateField (List.replicate 2100 'a') = List.replicate 2000 'a' ++ ("...".data) := by
  unfold truncateField
  rw [lenT_replicate_2100, if_pos (by omega), List.take_replicate,
    show min 2000 2100 = 2000 from by norm_num]

theorem truncateField_lenT_le (l : List Char) : lenT (truncateField l) ≤ 2003 := by
  unfold truncateField
  by_cases h : lenT l > 2000
  · rw [if_pos h, lenT_eq_length, List.length_append, List.length_take]
    have hge : 2000 ≤ l.length := by
      rw [lenT_eq_length] at h
      omega
    rw [Nat.min_eq_left hge]
    have h3 : ("...".data).length = 3 := rfl
    omega
  · rw [if_neg h]
    omega

theorem parse_responsibilities_eq (text : String) (h : text.data.isEmpty = false) :
    (parse_job_description text).responsibilities =
      (if (truncateField (sectionFields text.data).1).isEmpty then none
       else some ⟨truncateField (sectionFields text.data).1⟩) := by
  unfold parse_job_description
  rw [h]
  rfl

theorem parse_skills_eq (text : String) (h : text.data.isEmpty = false) :
    (parse_job_description text).skills =
      (if (truncateField (sectionFields text.data).2).isEmpty then none
       else some ⟨truncateField (sectionFields text.data).2⟩) := by
  unfold parse_job_description
  rw [h]
  rfl

theorem parse_fields_shape (text : String) :
    ((parse_job_description text).responsibilities = none ∨
      ∃ l, (parse_job_description text).responsibilities = some ⟨truncateField l⟩) ∧
    ((parse_job_description text).skills = none ∨
      ∃ l, (parse_job_description text).skills = some ⟨truncateField l⟩) := by
  by_cases h : text.data.isEmpty
  · constructor
    · left
      unfold parse_job_description
      rw [h]
      rfl
    · left
      unfold parse_job_description
      rw [h]
      rfl
  · have h' : text.data.isEmpty = false := by
      cases hb : text.data.isEmpty
      · rfl
      · exact absurd hb h
    constructor
    · rw [parse_responsibilities_eq text h']
      by_cases he : (truncateField (sectionFields text.data).1).isEmpty
      · left
        rw [if_pos he]
      · right
        exact ⟨(sectionFields text.data).1, by rw [if_neg he]⟩
    · rw [parse_skills_eq text h']
      by_cases he : (truncateField (sectionFields text.data).2).isEmpty
      · left
        rw [if_pos he]
      · right
        exact ⟨(sectionFields text.data).2, by rw [if_neg he]⟩

/-- Claim C5 counterexample: a responsibilities section of 2100
characters is truncated to its first 2000 characters plus the ellipsis,
so the stored field has 2003 characters — more than the 2000 the claim
allows. -/
theorem C5_counterexample :
    (parse_job_description c5text).responsibilities =
      some ⟨List.replicate 2000 'a' ++ ("...".data)⟩ ∧
    lenT (List.replicate 2000 'a' ++ ("...".data)) = 2003 ∧ ¬ (2003 ≤ 2000) := by
  refine ⟨?_, ?_, by omega⟩
  · rw [parse_responsibilities_eq c5text rfl]
    rw [show c5text.data = l1 ++ List.replicate 2100 'a' from rfl, c5_fields]
    rw [show ((List.replicate 2100 'a', ([] : List Char))).1 = List.replicate 2100 'a'
      from rfl]
    rw [c5_trunc]
    rw [if_neg (by decide)]
  · rw [lenT_eq_length, List.length_append, List.length_replicate]
    rfl

/-- Claim C5 (amended): each extracted field, when present, has at most
2003 characters; a field whose raw extracted text exceeds 2000 characters
is stored as its first 2000 characters followed by the three-character
ellipsis marker, for a total of exactly 2003. -/
theorem C5_truncation (text : String) :
    (∀ r, (parse_job_description text).responsibilities = some r → lenT r.data ≤ 2003) ∧
    (∀ s, (parse_job_description text).skills = some s → lenT s.data ≤ 2003) ∧
    (∀ l : List Char, 2000 < lenT l →
      truncateField l = l.take 2000 ++ ("...".data) ∧ lenT (truncateField l) = 2003) := by
  refine ⟨?_, ?_, ?_⟩
  · intro r hr
    rcases (parse_fields_shape text).1 with hnone | ⟨l, heq⟩
    · rw [hnone] at hr
      exact absurd hr (by simp)
    · rw [heq] at hr
      obtain rfl := Option.some_injective _ hr.symm
      exact truncateField_lenT_le l
  · intro s hs
    rcases (parse_fields_shape text).2 with hnone | ⟨l, heq⟩
    · rw [hnone] at hs
      exact absurd hs (by simp)
    · rw [heq] at hs
      obtain rfl := Option.some_injective _ hs.symm
      exact truncateField_lenT_le l
  · intro l hl
    refine ⟨by unfold truncateField; rw [if_pos (by omega)], ?_⟩
    unfold truncateField
    rw [if_pos (by omega), lenT_eq_length, List.length_append, List.length_take]
    have hge : 2000 ≤ l.length := by
      rw [lenT_eq_length] at hl
      omega
    rw [Nat.min_eq_left hge]
    rfl

/-- Witness for C5 (amended) on the small two-heading description. -/
theorem C5_truncation_witness :
    ((parse_job_description "Responsibilities: Build things. Skills: Go, Rust.").responsibilities =
      some "Build things.") ∧
    lenT ("Build things." : String).data ≤ 2003 :=
  ⟨by decide,
   (C5_truncation "Responsibilities: Build things. Skills: Go, Rust.").1
     "Build things." (by decide)⟩

end JobScraper
